import Mathlib

/-!
Verification of the deployment-orchestration subsystem of the lendpro
admin portal (TypeScript sources: `scripts/deploy-client.ts`,
`scripts/railway-api.ts`, `server/crypto.ts`, `server/router.ts`,
`database/schema.ts`, `database/db.ts`).

The TypeScript code is shallowly embedded: pure functions become Lean
functions, the database becomes an explicit record of rows threaded
through the handlers, remote Railway calls become an oracle record whose
fields give each call's outcome, and thrown JavaScript exceptions become
`Except String` values carrying the error message.
-/

namespace LendproAdmin

/-! ## Client configuration (`config/client-config-schema.ts`)

Only the fields read by the deployment code are modelled.  Optional
TypeScript fields (which may be `undefined`) become `Option`; JavaScript
string truthiness (`undefined`, `null` and `""` are falsy) is modelled by
`jsTruthy`. -/

structure LendproConfig where
  apiUrl : String
  username : String
  password : String
  storeId : String
  salesId : String
  salesName : String
deriving DecidableEq, Repr

structure BrandingConfig where
  logoUrl : Option String := none
  primaryColor : Option String := none
  secondaryColor : Option String := none
  companyName : Option String := none
deriving DecidableEq, Repr

structure VisualizerConfig where
  enabled : Bool
  embedCode : Option String := none
  autoSyncApiKey : Option String := none
deriving DecidableEq, Repr

/-- Feature flags (`client_features` row / `FeatureFlagsSchema`); only
`cartOnly` is read by the deployer. -/
structure FeatureFlags where
  cartOnly : Bool := false
deriving DecidableEq, Repr

structure ClientConfig where
  id : String
  name : String
  domain : String
  lendpro : LendproConfig
  branding : Option BrandingConfig := none
  visualizer : Option VisualizerConfig := none
  features : Option FeatureFlags := none
deriving DecidableEq, Repr

/-- JavaScript truthiness of an optional string: `undefined` and `""` are
falsy (`if (config.branding.primaryColor) ...`). -/
def jsTruthy : Option String → Bool
  | none => false
  | some s => !(s == "")

structure EnvVar where
  key : String
  value : String
deriving DecidableEq, Repr

/-! ## `ClientDeployer.buildEnvironmentVariables` (`deploy-client.ts`) -/

/-- Environment-variable construction, translated line by line from
`ClientDeployer.buildEnvironmentVariables(config, mysqlServiceId)`.
The `DATABASE_URL` value is Railway's interpolation syntax
`${{<serviceId>.MYSQL_URL}}`. -/
def buildEnvironmentVariables (config : ClientConfig) (mysqlServiceId : String) :
    List EnvVar :=
  let vars : List EnvVar :=
    [ ⟨"NODE_ENV", "production"⟩,
      ⟨"PORT", "3000"⟩,
      ⟨"LENDPRO_API_URL", config.lendpro.apiUrl⟩,
      ⟨"LENDPRO_USERNAME", config.lendpro.username⟩,
      ⟨"LENDPRO_PASSWORD", config.lendpro.password⟩,
      ⟨"LENDPRO_STORE_ID", config.lendpro.storeId⟩,
      ⟨"LENDPRO_SALES_ID", config.lendpro.salesId⟩,
      ⟨"LENDPRO_SALES_NAME", config.lendpro.salesName⟩,
      ⟨"DATABASE_URL", "$\x7b\x7b" ++ mysqlServiceId ++ ".MYSQL_URL\x7d\x7d"⟩,
      ⟨"OAUTH_SERVER_URL", "http://localhost:3000"⟩ ]
  let vars := vars ++
    (match config.visualizer with
     | none => []
     | some v =>
       [⟨"VISUALIZER_ENABLED", if v.enabled then "true" else "false"⟩]
       ++ (if jsTruthy v.embedCode then
             [⟨"VISUALIZER_EMBED_CODE", v.embedCode.getD ""⟩] else [])
       ++ (if jsTruthy v.autoSyncApiKey then
             [⟨"AUTOSYNC_API_KEY", v.autoSyncApiKey.getD ""⟩] else []))
  let vars := vars ++
    (match config.features with
     | none => []
     | some f => if f.cartOnly then [⟨"CART_ONLY_MODE", "true"⟩] else [])
  let vars := vars ++
    (match config.branding with
     | none => []
     | some b =>
       (if jsTruthy b.primaryColor then
          [⟨"VITE_PRIMARY_COLOR", b.primaryColor.getD ""⟩] else [])
       ++ (if jsTruthy b.secondaryColor then
             [⟨"VITE_SECONDARY_COLOR", b.secondaryColor.getD ""⟩] else [])
       ++ (if jsTruthy b.companyName then
             [⟨"VITE_COMPANY_NAME", b.companyName.getD ""⟩] else [])
       ++ (if jsTruthy b.logoUrl then
             [⟨"VITE_LOGO_URL", b.logoUrl.getD ""⟩] else []))
  vars

/-- The keys that are only emitted for branding, visualizer or cart-only
configuration. -/
def conditionalKeys : List String :=
  [ "VISUALIZER_ENABLED", "VISUALIZER_EMBED_CODE", "AUTOSYNC_API_KEY",
    "CART_ONLY_MODE",
    "VITE_PRIMARY_COLOR", "VITE_SECONDARY_COLOR", "VITE_COMPANY_NAME",
    "VITE_LOGO_URL" ]

/-! ## Railway project naming (`deployClient`, step 1)

`createProject(` ``lendpro-${config.name.toLowerCase().replace(/\s+/g, "-")}`` `)`:
the display name is lowercased, each maximal whitespace run is replaced by a
single hyphen, and the fixed prefix `lendpro-` is prepended. -/

/-- Replace each maximal run of whitespace by a single `'-'`
(the effect of `.replace(/\s+/g, "-")`); the boolean records whether the
previous character belonged to a whitespace run. -/
def collapseWhitespace : Bool → List Char → List Char
  | _, [] => []
  | prevWs, c :: rest =>
    if c.isWhitespace then
      if prevWs then collapseWhitespace true rest
      else '-' :: collapseWhitespace true rest
    else c :: collapseWhitespace false rest

/-- `config.name.toLowerCase().replace(/\s+/g, "-")`. -/
def slugify (name : String) : String :=
  String.mk (collapseWhitespace false (name.toList.map Char.toLower))

/-- The project name passed to `createProject` in step 1 of
`ClientDeployer.deployClient`. -/
def railwayProjectName (name : String) : String :=
  "lendpro-" ++ slugify name

/-- The naming recipe exactly as the specification words it: "the name
lowercased with spaces replaced by hyphens" (no prefix, each space
replaced individually). -/
def specProjectName (name : String) : String :=
  String.mk (name.toList.map (fun c => if c = ' ' then '-' else c.toLower))

/-! ## Completion polling (`ClientDeployer.waitForDeployment`)

The `while (Date.now() - startTime < timeout)` loop is embedded with an
idealized clock: time advances only through the `sleep(pollInterval)`
call, so after `k` iterations the elapsed time is `k * interval`
milliseconds.  `poll k` is the status string returned by the `k`-th
`getDeploymentStatus` call.  Alongside the outcome, the loop returns the
elapsed times at which polls were issued. -/

inductive WaitOutcome where
  | completed (status : String)
  | deployFailed (status : String)
  | timedOut (timeout : Nat)
deriving DecidableEq, Repr

def waitForDeploymentLoop (poll : Nat → String) (timeout interval : Nat)
    (hI : 0 < interval) (k : Nat) : WaitOutcome × List Nat :=
  if h : k * interval < timeout then
    let s := poll k
    if s = "SUCCESS" ∨ s = "ACTIVE" then (.completed s, [k * interval])
    else if s = "FAILED" ∨ s = "CRASHED" then (.deployFailed s, [k * interval])
    else
      let r := waitForDeploymentLoop poll timeout interval hI (k + 1)
      (r.1, k * interval :: r.2)
  else (.timedOut timeout, [])
termination_by timeout - k * interval
decreasing_by
  have hs : (k + 1) * interval = k * interval + interval := Nat.succ_mul k interval
  omega

/-- `waitForDeployment(deploymentId, timeout)`: terminal failure statuses
and timeout are thrown as errors carrying the messages built in the
source. -/
def waitForDeployment (poll : Nat → String) (timeout interval : Nat)
    (hI : 0 < interval) : Except String String × List Nat :=
  let r := waitForDeploymentLoop poll timeout interval hI 0
  (match r.1 with
   | .completed s => .ok s
   | .deployFailed s => .error ("Deployment failed with status: " ++ s)
   | .timedOut t => .error ("Deployment timed out after " ++ toString t ++ "ms"),
   r.2)

/-! ## Remote platform oracle (`railway-api.ts`)

Each Railway API method's outcome is a field of an oracle record; a
`.error` value stands for a thrown `RemoteApiError`/axios failure.
`getDeploymentStatus` is indexed by poll number (the deployer polls a
single deployment id). -/

inductive RemoteCall where
  | createProject (name : String)
  | createMySQLService (projectId name : String)
  | createService (projectId name repo branch : String)
  | setEnvironmentVariables (projectId serviceId : String) (vars : List EnvVar)
  | triggerDeployment (projectId serviceId : String)
  | getServiceDomain (serviceId : String)
  | addCustomDomain (serviceId domain : String)
  | deleteProject (projectId : String)
deriving DecidableEq, Repr

structure ProjectInfo where
  projectId : String
  projectName : String
deriving DecidableEq, Repr

structure ServiceInfo where
  serviceId : String
  serviceName : String
deriving DecidableEq, Repr

structure TriggerInfo where
  deploymentId : String
  status : String
deriving DecidableEq, Repr

structure RailwayOracle where
  createProject : String → Except String ProjectInfo
  createMySQLService : String → String → Except String ServiceInfo
  createService : String → String → String → String → Except String ServiceInfo
  setEnvironmentVariables : String → String → List EnvVar → Except String Unit
  triggerDeployment : String → String → Except String TriggerInfo
  getDeploymentStatus : Nat → String
  getServiceDomain : String → Except String (Option String)
  addCustomDomain : String → String → Except String Unit
  deleteProject : String → Except String Unit

/-! ## `ClientDeployer.deployClient` (`deploy-client.ts`) -/

def githubRepo : String := "AudienceActivatorAI/lendpro-ecommerce"

def githubBranch : String := "main"

def pollIntervalPos : 0 < 5000 := by decide

structure DeploySuccess where
  project : ProjectInfo
  serviceUrl : Option String
deriving DecidableEq, Repr

/-- The `try` block of `deployClient`: the eight provisioning steps in
source order.  The second component is the trace of remote calls issued
(status polls are accounted by `waitForDeployment`; the fixed
`sleep(5000)` settle delay after MySQL creation has no observable effect
here).  A `.error` is the first exception raised by a step. -/
def deployClientCore (o : RailwayOracle) (config : ClientConfig) :
    Except String DeploySuccess × List RemoteCall :=
  -- Step 1: create Railway project
  let projectName := railwayProjectName config.name
  let log1 := [RemoteCall.createProject projectName]
  match o.createProject projectName with
  | .error e => (.error e, log1)
  | .ok project =>
    -- Step 2: create MySQL database service
    let log2 := log1 ++ [RemoteCall.createMySQLService project.projectId "mysql"]
    match o.createMySQLService project.projectId "mysql" with
    | .error e => (.error e, log2)
    | .ok mysqlService =>
      -- Step 3: create web service bound to the shared GitHub source
      let log3 := log2 ++
        [RemoteCall.createService project.projectId "web" githubRepo githubBranch]
      match o.createService project.projectId "web" githubRepo githubBranch with
      | .error e => (.error e, log3)
      | .ok webService =>
        -- Step 4: set environment variables
        let envVars := buildEnvironmentVariables config mysqlService.serviceId
        let log4 := log3 ++
          [RemoteCall.setEnvironmentVariables project.projectId webService.serviceId envVars]
        match o.setEnvironmentVariables project.projectId webService.serviceId envVars with
        | .error e => (.error e, log4)
        | .ok _ =>
          -- Step 5: trigger deployment
          let log5 := log4 ++
            [RemoteCall.triggerDeployment project.projectId webService.serviceId]
          match o.triggerDeployment project.projectId webService.serviceId with
          | .error e => (.error e, log5)
          | .ok _deployment =>
            -- Step 6: wait for completion (timeout 300000 ms, poll every 5000 ms)
            match (waitForDeployment o.getDeploymentStatus 300000 5000 pollIntervalPos).1 with
            | .error e => (.error e, log5)
            | .ok _finalStatus =>
              -- Step 7: get service URL
              let log6 := log5 ++ [RemoteCall.getServiceDomain webService.serviceId]
              match o.getServiceDomain webService.serviceId with
              | .error e => (.error e, log6)
              | .ok serviceUrl =>
                -- Step 8: add custom domain if specified; failure is
                -- caught and does not fail the deployment
                let log7 := log6 ++
                  (if config.domain == "" then []
                   else [RemoteCall.addCustomDomain webService.serviceId config.domain])
                (.ok ⟨project, serviceUrl⟩, log7)

structure DeploymentResult where
  success : Bool
  clientId : String
  projectId : Option String := none
  projectUrl : Option String := none
  serviceUrl : Option String := none
  error : Option String := none
deriving DecidableEq, Repr

/-- `deployClient` proper: the `try`/`catch` wrapper.  Any error raised by
a provisioning step is caught and converted to a structured
`DeploymentResult` — the function is total, no exception escapes. -/
def deployClient (o : RailwayOracle) (config : ClientConfig) :
    DeploymentResult × List RemoteCall :=
  match deployClientCore o config with
  | (.ok d, log) =>
    ({ success := true, clientId := config.id,
       projectId := some d.project.projectId,
       projectUrl := some ("https://railway.app/project/" ++ d.project.projectId),
       serviceUrl := d.serviceUrl }, log)
  | (.error e, log) =>
    ({ success := false, clientId := config.id, error := some e }, log)

/-! ## Ledger data model (`database/schema.ts`, `database/db.ts`)

`clients.status`, the `deployments` status/type enums, and the columns
read or written by the deploy/delete mutations.  A `ClientRow` models the
join returned by `getClient` (client row plus its `client_lendpro_config`,
`client_branding` and `client_features` rows).  Timestamps are `Nat`
milliseconds. -/

inductive ClientStatus where
  | active | inactive | deploying | failed
deriving DecidableEq, Repr

inductive DeploymentStatus where
  | pending | building | deploying | success | failed | cancelled
deriving DecidableEq, Repr

def DeploymentStatus.isTerminal : DeploymentStatus → Bool
  | .success => true
  | .failed => true
  | .cancelled => true
  | _ => false

inductive DeploymentType where
  | initial | update | redeploy | rollback
deriving DecidableEq, Repr

structure ClientRow where
  id : String
  name : String
  domain : Option String := none
  railwayProjectId : Option String := none
  railwayProjectUrl : Option String := none
  serviceUrl : Option String := none
  status : ClientStatus := .inactive
  lastDeployedAt : Option Nat := none
  lendpro : LendproConfig
  branding : Option BrandingConfig := none
  features : Option FeatureFlags := none
deriving DecidableEq, Repr

structure DeploymentRow where
  id : String
  clientId : String
  status : DeploymentStatus := .pending
  deploymentType : DeploymentType
  errorMessage : Option String := none
  completedAt : Option Nat := none
deriving DecidableEq, Repr

structure AdminDb where
  clients : List ClientRow
  deployments : List DeploymentRow
deriving DecidableEq, Repr

/-- `getClient(clientId)` (null when no row matches). -/
def getClientRow (db : AdminDb) (clientId : String) : Option ClientRow :=
  db.clients.find? (fun r => r.id == clientId)

/-- `updateClient(clientId, updates)`: `UPDATE clients SET ... WHERE id = clientId`. -/
def updateClientRow (db : AdminDb) (clientId : String)
    (f : ClientRow → ClientRow) : AdminDb :=
  { db with clients := db.clients.map (fun r => if r.id == clientId then f r else r) }

/-- `updateDeployment(deploymentId, updates)`. -/
def updateDeploymentRow (db : AdminDb) (deploymentId : String)
    (f : DeploymentRow → DeploymentRow) : AdminDb :=
  { db with deployments :=
      db.deployments.map (fun r => if r.id == deploymentId then f r else r) }

/-- `createDeployment(...)`: `INSERT INTO deployments`. -/
def createDeploymentRow (db : AdminDb) (row : DeploymentRow) : AdminDb :=
  { db with deployments := db.deployments ++ [row] }

/-- `deleteClient(clientId)`: the client row is deleted and the
`ON DELETE CASCADE` constraint removes its related rows, including its
deployments. -/
def deleteClientRows (db : AdminDb) (clientId : String) : AdminDb :=
  { clients := db.clients.filter (fun r => !(r.id == clientId)),
    deployments := db.deployments.filter (fun r => !(r.clientId == clientId)) }

/-- The (status, completedAt) snapshot of one deployment ledger row. -/
def depSnap (db : AdminDb) (deploymentId : String) :
    Option (DeploymentStatus × Option Nat) :=
  (db.deployments.find? (fun r => r.id == deploymentId)).map
    (fun r => (r.status, r.completedAt))

/-! ## `clients.deploy` mutation (`server/router.ts`) -/

/-- The `clientConfig` object assembled by the mutation before calling
`deployer.deployClient`: the stored lendpro password is replaced by its
decryption, `domain` falls back to `""`, and no visualizer configuration
is passed. -/
def deployConfigOfRow (c : ClientRow) (password : String) : ClientConfig :=
  { id := c.id, name := c.name, domain := c.domain.getD "",
    lendpro := { c.lendpro with password := password },
    branding := c.branding, visualizer := none, features := c.features }

structure DeployMutationOut where
  result : Except String DeploymentResult
  db : AdminDb
  dbTrace : List AdminDb
deriving Repr

/-- The `clients.deploy` tRPC mutation.  `deploymentId` is the fresh
`nanoid()`, `now` the clock value used for every `new Date()`, and
`decryptedPassword` the outcome of `decryptPassword(client.lendpro.password)`
(a `.error` models the throw of the crypto layer, caught by the
mutation's `catch`).  `dbTrace` records the database after each write, in
order; the mutation's own behaviour does not depend on it.  A `.error`
result models the mutation re-throwing to its caller. -/
def deployMutation (db : AdminDb) (clientId deploymentId : String) (now : Nat)
    (o : RailwayOracle) (decryptedPassword : Except String String) :
    DeployMutationOut :=
  match getClientRow db clientId with
  | none => ⟨.error ("Client not found: " ++ clientId), db, []⟩
  | some client =>
    let row : DeploymentRow :=
      { id := deploymentId, clientId := clientId, status := .pending,
        deploymentType :=
          if client.railwayProjectId.isSome then .redeploy else .initial }
    let db1 := createDeploymentRow db row
    -- try block
    let db2 := updateClientRow db1 clientId (fun r => { r with status := .deploying })
    let db3 := updateDeploymentRow db2 deploymentId
      (fun r => { r with status := .building })
    match decryptedPassword with
    | .error msg =>
      -- decryptPassword threw; control reaches the catch block
      let db4 := updateClientRow db3 clientId (fun r => { r with status := .failed })
      let db5 := updateDeploymentRow db4 deploymentId
        (fun r => { r with
          status := .failed, errorMessage := some msg, completedAt := some now })
      ⟨.error msg, db5, [db1, db2, db3, db4, db5]⟩
    | .ok password =>
      let config := deployConfigOfRow client password
      let result := (deployClient o config).1
      if result.success then
        let db4 := updateClientRow db3 clientId (fun r =>
          { r with
            status := .active,
            railwayProjectId := result.projectId.orElse (fun _ => r.railwayProjectId),
            railwayProjectUrl := result.projectUrl.orElse (fun _ => r.railwayProjectUrl),
            serviceUrl := result.serviceUrl.orElse (fun _ => r.serviceUrl),
            lastDeployedAt := some now })
        let db5 := updateDeploymentRow db4 deploymentId
          (fun r => { r with status := .success, completedAt := some now })
        ⟨.ok result, db5, [db1, db2, db3, db4, db5]⟩
      else
        let db4 := updateClientRow db3 clientId (fun r => { r with status := .failed })
        let db5 := updateDeploymentRow db4 deploymentId
          (fun r => { r with
            status := .failed,
            errorMessage := result.error.orElse (fun _ => r.errorMessage),
            completedAt := some now })
        -- throw new Error(result.error || "Deployment failed"): the throw is
        -- inside the try, so the catch runs and writes failure a second time
        let msg := result.error.getD "Deployment failed"
        let db6 := updateClientRow db5 clientId (fun r => { r with status := .failed })
        let db7 := updateDeploymentRow db6 deploymentId
          (fun r => { r with
            status := .failed, errorMessage := some msg, completedAt := some now })
        ⟨.error msg, db7, [db1, db2, db3, db4, db5, db6, db7]⟩

/-! ## `clients.delete` mutation (`server/router.ts`) -/

/-- The `clients.delete` tRPC mutation: the remote `deleteProject` is
attempted only when the client has a Railway project, its failure is
caught (logged) and discarded, and the local rows are deleted
unconditionally afterwards. -/
def deleteMutation (db : AdminDb) (clientId : String) (o : RailwayOracle) :
    Except String Unit × AdminDb :=
  match getClientRow db clientId with
  | none => (.error "Client not found", db)
  | some client =>
    let _remoteOutcome : Except String Unit :=
      match client.railwayProjectId with
      | some projectId => o.deleteProject projectId
      | none => .ok ()
    (.ok (), deleteClientRows db clientId)

/-! ## Secrets codec (`server/crypto.ts`)

Byte buffers are `List Nat` with every element below 256.  The
`aes-256-gcm` / PBKDF2 primitives live in Node's `crypto` library; they
are embedded structurally: `kdf` is `pbkdf2Sync(masterKey, salt, 100000,
32, "sha512")`, `mask` is the keystream encryption of GCM (a length- and
validity-preserving bijection per key/IV), and `mac` is the 16-byte
authentication tag GCM computes over the ciphertext — decryption recomputes
it and `decipher.final()` throws unless it matches the embedded tag.
The laws recorded in `GcmPrims` are exactly the cipher-contract facts the
round-trip behaviour relies on. -/

def ValidBytes (l : List Nat) : Prop := ∀ b ∈ l, b < 256

instance (l : List Nat) : Decidable (ValidBytes l) :=
  inferInstanceAs (Decidable (∀ b ∈ l, b < 256))

/-! ### Base64 (`Buffer.toString("base64")` / `Buffer.from(_, "base64")`)

Strict RFC 4648 encoding of 8-bit bytes into the 64-character alphabet
with `'='` padding.  (Node's decoder is lenient on malformed input; the
two agree on every encoder output, which is all the code ever decodes.) -/

def b64Alphabet : List Char :=
  "ABCDEFGHIJKLMNOPQRSTUVWXYZabcdefghijklmnopqrstuvwxyz0123456789+/".toList

def b64Char (s : Nat) : Char := b64Alphabet.getD s 'A'

def b64CharIndex (c : Char) : Option Nat :=
  let i := b64Alphabet.indexOf c
  if i < 64 then some i else none

def b64EncodeBytes : List Nat → List Char
  | [] => []
  | [a] => [b64Char (a / 4), b64Char (a % 4 * 16), '=', '=']
  | [a, b] =>
    [b64Char (a / 4), b64Char (a % 4 * 16 + b / 16), b64Char (b % 16 * 4), '=']
  | a :: b :: c :: rest =>
    b64Char (a / 4) :: b64Char (a % 4 * 16 + b / 16) ::
      b64Char (b % 16 * 4 + c / 64) :: b64Char (c % 64) :: b64EncodeBytes rest

def b64DecodeBytes : List Char → Option (List Nat)
  | [] => some []
  | c1 :: c2 :: c3 :: c4 :: rest =>
    if c3 = '=' ∧ c4 = '=' ∧ rest = [] then
      match b64CharIndex c1, b64CharIndex c2 with
      | some s1, some s2 => if s2 % 16 = 0 then some [s1 * 4 + s2 / 16] else none
      | _, _ => none
    else if c4 = '=' ∧ rest = [] then
      match b64CharIndex c1, b64CharIndex c2, b64CharIndex c3 with
      | some s1, some s2, some s3 =>
        if s3 % 4 = 0 then some [s1 * 4 + s2 / 16, s2 % 16 * 16 + s3 / 4] else none
      | _, _, _ => none
    else
      match b64CharIndex c1, b64CharIndex c2, b64CharIndex c3, b64CharIndex c4 with
      | some s1, some s2, some s3, some s4 =>
        (b64DecodeBytes rest).map
          (fun bs =>
            (s1 * 4 + s2 / 16) :: (s2 % 16 * 16 + s3 / 4) :: (s3 % 4 * 64 + s4) :: bs)
      | _, _, _, _ => none
  | _ => none

/-! ### The cipher primitives and their contract -/

structure GcmPrims where
  kdf : List Nat → List Nat → List Nat
  mask : List Nat → List Nat → List Nat → List Nat
  unmask : List Nat → List Nat → List Nat → List Nat
  mac : List Nat → List Nat → List Nat → List Nat
  unmask_mask : ∀ deriv iv p, ValidBytes p → unmask deriv iv (mask deriv iv p) = p
  mask_valid : ∀ deriv iv p, ValidBytes p → ValidBytes (mask deriv iv p)
  mac_length : ∀ deriv iv ct, (mac deriv iv ct).length = 16
  mac_valid : ∀ deriv iv ct, ValidBytes (mac deriv iv ct)

def SALT_LENGTH : Nat := 64

def IV_LENGTH : Nat := 16

def TAG_LENGTH : Nat := 16

/-- `encryptPassword(plaintext)`.  The random `salt` (64 bytes) and `iv`
(16 bytes) drawn by `crypto.randomBytes` are explicit arguments, and the
master key (already hex-decoded) as well.  The returned token is the
base64 of `salt ++ iv ++ tag ++ ciphertext`, in that fixed order. -/
def encryptPassword (P : GcmPrims) (masterKey salt iv plaintext : List Nat) :
    String :=
  let key := P.kdf masterKey salt
  let encrypted := P.mask key iv plaintext
  let tag := P.mac key iv encrypted
  String.mk (b64EncodeBytes (salt ++ iv ++ tag ++ encrypted))

/-- `decryptPassword(encrypted)`: base64-decode, split at the fixed
offsets 64/80/96, re-derive the key from the embedded salt, check the
authentication tag and unmask.  Every failure inside the `try` is caught
and re-thrown as `Error("Failed to decrypt password")`. -/
def decryptPassword (P : GcmPrims) (masterKey : List Nat) (token : String) :
    Except String (List Nat) :=
  match b64DecodeBytes token.toList with
  | none => .error "Failed to decrypt password"
  | some buffer =>
    let salt := buffer.take SALT_LENGTH
    let iv := (buffer.drop SALT_LENGTH).take IV_LENGTH
    let tag := (buffer.drop (SALT_LENGTH + IV_LENGTH)).take TAG_LENGTH
    let encryptedData := buffer.drop (SALT_LENGTH + IV_LENGTH + TAG_LENGTH)
    let key := P.kdf masterKey salt
    if tag = P.mac key iv encryptedData then .ok (P.unmask key iv encryptedData)
    else .error "Failed to decrypt password"

/-- A concrete executable instance of the cipher contract, used to
instantiate the round-trip theorem on concrete inputs. -/
def toyPrims : GcmPrims where
  kdf masterKey salt := [(masterKey ++ salt).foldl (fun a b => (a + b) % 256) 0]
  mask _ _ p := p.map (fun b => (b + 1) % 256)
  unmask _ _ ct := ct.map (fun b => (b + 255) % 256)
  mac deriv iv ct := List.replicate 16 ((deriv.sum + iv.sum + ct.sum) % 256)
  unmask_mask := by
    intro d iv p hp
    dsimp only
    rw [List.map_map]
    revert hp
    induction p with
    | nil => intro _; rfl
    | cons a t ih =>
      intro hp
      have ha : a < 256 := hp a (List.mem_cons_self a t)
      simp only [List.map_cons, List.cons.injEq, Function.comp_apply]
      exact ⟨by omega, ih (fun b hb => hp b (List.mem_cons_of_mem a hb))⟩
  mask_valid := by
    intro d iv p hp b hb
    simp only [List.mem_map] at hb
    obtain ⟨x, _, hx⟩ := hb
    omega
  mac_length := by intro d iv ct; simp
  mac_valid := by
    intro d iv ct b hb
    simp only [List.mem_replicate] at hb
    omega

/-! ## Generic helpers and concrete fixtures -/

/-- Collapse consecutive duplicates: the sequence of distinct values a
field takes over a run of writes. -/
def dedupConsecutive {α : Type} [DecidableEq α] : List α → List α
  | [] => []
  | [a] => [a]
  | a :: b :: rest =>
    if a = b then dedupConsecutive (b :: rest)
    else a :: dedupConsecutive (b :: rest)

/-- All prefixes of a list, shortest first. -/
def listPrefixes {α : Type} (l : List α) : List (List α) :=
  (List.range (l.length + 1)).map (fun n => l.take n)

/-- An oracle on which every remote call fails with a `RemoteApiError`
and the status feed never reaches a terminal state. -/
def oracleAllFail : RailwayOracle where
  createProject := fun _ => .error "remote error"
  createMySQLService := fun _ _ => .error "remote error"
  createService := fun _ _ _ _ => .error "remote error"
  setEnvironmentVariables := fun _ _ _ => .error "remote error"
  triggerDeployment := fun _ _ => .error "remote error"
  getDeploymentStatus := fun _ => "BUILDING"
  getServiceDomain := fun _ => .error "remote error"
  addCustomDomain := fun _ _ => .error "remote error"
  deleteProject := fun _ => .error "remote error"

def lendpro0 : LendproConfig :=
  { apiUrl := "https://apisg.mylendpro.com", username := "u", password := "p",
    storeId := "S1", salesId := "X1", salesName := "Jane" }

/-- A client with a deployment attempt still pending in the ledger. -/
def client0 : ClientRow :=
  { id := "c1", name := "Acme", domain := some "acme.test",
    status := .deploying, lendpro := lendpro0 }

def pendingRow : DeploymentRow :=
  { id := "d1", clientId := "c1", status := .pending, deploymentType := .initial }

def db0 : AdminDb := { clients := [client0], deployments := [pendingRow] }

/-- A client that owns a Railway project, for exercising `clients.delete`. -/
def client9 : ClientRow :=
  { id := "c9", name := "Acme", domain := some "acme.test",
    railwayProjectId := some "p1", status := .active, lendpro := lendpro0 }

def row9 : DeploymentRow :=
  { id := "d9", clientId := "c9", status := .success, deploymentType := .initial,
    completedAt := some 3 }

def db9 : AdminDb := { clients := [client9], deployments := [row9] }

def myShopConfig : ClientConfig :=
  { id := "c1", name := "My Shop", domain := "myshop.test", lendpro := lendpro0 }

/-!
# Theorems

Everything above is the embedding of the source; everything below proves
properties of it.
-/

/-! ## Base64 round trip -/

theorem b64CharIndex_b64Char : ∀ s, s < 64 → b64CharIndex (b64Char s) = some s := by
  decide

theorem b64Char_ne_pad : ∀ s, s < 64 → b64Char s ≠ '=' := by
  decide

/-- Strict base64 decoding is a left inverse of encoding on byte lists. -/
theorem b64_roundtrip : ∀ l, ValidBytes l → b64DecodeBytes (b64EncodeBytes l) = some l := by
  intro l
  induction l using b64EncodeBytes.induct with
  | case1 => intro _; rfl
  | case2 a =>
    intro hl
    have ha : a < 256 := hl a (by simp)
    have h1 := b64CharIndex_b64Char (a / 4) (by omega)
    have h2 := b64CharIndex_b64Char (a % 4 * 16) (by omega)
    have h3 : a % 4 * 16 % 16 = 0 := by omega
    simp only [b64EncodeBytes, b64DecodeBytes, h1, h2, h3, and_self, if_true,
      and_true, true_and, if_pos, Option.some.injEq, List.cons.injEq, and_true]
    omega
  | case3 a b =>
    intro hl
    have ha : a < 256 := hl a (by simp)
    have hb : b < 256 := hl b (by simp)
    have hne : b64Char (b % 16 * 4) ≠ '=' := b64Char_ne_pad _ (by omega)
    have h1 := b64CharIndex_b64Char (a / 4) (by omega)
    have h2 := b64CharIndex_b64Char (a % 4 * 16 + b / 16) (by omega)
    have h3 := b64CharIndex_b64Char (b % 16 * 4) (by omega)
    have h4 : b % 16 * 4 % 4 = 0 := by omega
    simp only [b64EncodeBytes, b64DecodeBytes, hne, h1, h2, h3, h4, and_self,
      false_and, and_false, if_false, and_true, true_and, if_true,
      Option.some.injEq, List.cons.injEq]
    refine ⟨by omega, by omega⟩
  | case4 a b c rest ih =>
    intro hl
    have ha : a < 256 := hl a (by simp)
    have hb : b < 256 := hl b (by simp)
    have hc : c < 256 := hl c (by simp)
    have hrest : ValidBytes rest := fun x hx => hl x (by simp [hx])
    have hne3 : b64Char (b % 16 * 4 + c / 64) ≠ '=' := b64Char_ne_pad _ (by omega)
    have hne4 : b64Char (c % 64) ≠ '=' := b64Char_ne_pad _ (by omega)
    have h1 := b64CharIndex_b64Char (a / 4) (by omega)
    have h2 := b64CharIndex_b64Char (a % 4 * 16 + b / 16) (by omega)
    have h3 := b64CharIndex_b64Char (b % 16 * 4 + c / 64) (by omega)
    have h4 := b64CharIndex_b64Char (c % 64) (by omega)
    simp only [b64EncodeBytes, b64DecodeBytes, hne3, hne4, h1, h2, h3, h4,
      false_and, and_false, if_false, ih hrest, Option.map_some',
      Option.some.injEq, List.cons.injEq]
    refine ⟨by omega, by omega, by omega, trivial⟩

/-! ## Secrets codec round trip (C3) -/

/-- `decryptPassword` on a well-formed token splits it back into its four
components and reduces to the tag check. -/
theorem decrypt_of_token (P : GcmPrims) (mk salt iv tag ct : List Nat)
    (hsalt : salt.length = SALT_LENGTH) (hiv : iv.length = IV_LENGTH)
    (htag : tag.length = TAG_LENGTH)
    (hv : ValidBytes (salt ++ iv ++ tag ++ ct)) :
    decryptPassword P mk (String.mk (b64EncodeBytes (salt ++ iv ++ tag ++ ct))) =
      (if tag = P.mac (P.kdf mk salt) iv ct then
        .ok (P.unmask (P.kdf mk salt) iv ct)
       else .error "Failed to decrypt password") := by
  have hdec : b64DecodeBytes
      (String.mk (b64EncodeBytes (salt ++ iv ++ tag ++ ct))).toList
      = some (salt ++ iv ++ tag ++ ct) := b64_roundtrip _ hv
  simp only [decryptPassword, hdec]
  have e1 : (salt ++ iv ++ tag ++ ct).take SALT_LENGTH = salt := by
    rw [List.append_assoc, List.append_assoc]
    exact List.take_left' hsalt
  have e2 : ((salt ++ iv ++ tag ++ ct).drop SALT_LENGTH).take IV_LENGTH = iv := by
    rw [List.append_assoc, List.append_assoc, List.drop_left' hsalt]
    exact List.take_left' hiv
  have e3 : ((salt ++ iv ++ tag ++ ct).drop (SALT_LENGTH + IV_LENGTH)).take
      TAG_LENGTH = tag := by
    rw [List.append_assoc (salt ++ iv) tag ct,
        List.drop_left' (by simp [hsalt, hiv])]
    exact List.take_left' htag
  have e4 : (salt ++ iv ++ tag ++ ct).drop (SALT_LENGTH + IV_LENGTH + TAG_LENGTH)
      = ct := by
    rw [List.drop_left'
      (by rw [List.length_append, List.length_append, hsalt, hiv, htag])]
  rw [e1, e2, e3, e4]

/-- C3: for every cipher instance satisfying the GCM contract, every
master key, every 64-byte salt and 16-byte IV drawn by `randomBytes`, and
every plaintext, `decryptPassword` inverts `encryptPassword`; moreover the
token is exactly the base64 of `salt ++ iv ++ tag ++ ciphertext`, in that
fixed order. -/
theorem encrypt_decrypt_roundtrip (P : GcmPrims)
    (mk salt iv plaintext : List Nat)
    (hsalt : salt.length = SALT_LENGTH) (hiv : iv.length = IV_LENGTH)
    (hvs : ValidBytes salt) (hvi : ValidBytes iv) (hvp : ValidBytes plaintext) :
    decryptPassword P mk (encryptPassword P mk salt iv plaintext) = .ok plaintext ∧
    b64DecodeBytes (encryptPassword P mk salt iv plaintext).toList =
      some (salt ++ iv ++
        P.mac (P.kdf mk salt) iv (P.mask (P.kdf mk salt) iv plaintext) ++
        P.mask (P.kdf mk salt) iv plaintext) := by
  have hvct : ValidBytes (P.mask (P.kdf mk salt) iv plaintext) :=
    P.mask_valid _ _ _ hvp
  have hvtag : ValidBytes
      (P.mac (P.kdf mk salt) iv (P.mask (P.kdf mk salt) iv plaintext)) :=
    P.mac_valid _ _ _
  have hv : ValidBytes (salt ++ iv ++
      P.mac (P.kdf mk salt) iv (P.mask (P.kdf mk salt) iv plaintext) ++
      P.mask (P.kdf mk salt) iv plaintext) := by
    intro b hb
    simp only [List.mem_append] at hb
    rcases hb with ((hb | hb) | hb) | hb
    · exact hvs b hb
    · exact hvi b hb
    · exact hvtag b hb
    · exact hvct b hb
  constructor
  · have := decrypt_of_token P mk salt iv
      (P.mac (P.kdf mk salt) iv (P.mask (P.kdf mk salt) iv plaintext))
      (P.mask (P.kdf mk salt) iv plaintext)
      hsalt hiv (P.mac_length _ _ _) hv
    simp only [encryptPassword]
    rw [this, if_pos rfl, P.unmask_mask _ _ _ hvp]
  · simp only [encryptPassword]
    exact b64_roundtrip _ hv

/-- Witness for C3 at concrete inputs: the toy cipher instance, master
key `[1, 2]`, a 64-byte salt, a 16-byte IV and plaintext `"hi"` as
bytes. -/
theorem encrypt_decrypt_roundtrip_witness :
    decryptPassword toyPrims [1, 2]
      (encryptPassword toyPrims [1, 2] (List.replicate 64 7)
        (List.replicate 16 3) [104, 105]) = .ok [104, 105] :=
  (encrypt_decrypt_roundtrip toyPrims [1, 2] (List.replicate 64 7)
    (List.replicate 16 3) [104, 105] (by simp [SALT_LENGTH])
    (by simp [IV_LENGTH]) (by decide) (by decide) (by decide)).1

/-! ## Completion polling (C5, C10) -/

/-- One unfolding of the polling loop. -/
theorem waitLoop_step (poll : Nat → String) (timeout interval : Nat)
    (hI : 0 < interval) (k : Nat) :
    waitForDeploymentLoop poll timeout interval hI k =
      if k * interval < timeout then
        (if poll k = "SUCCESS" ∨ poll k = "ACTIVE" then
          (.completed (poll k), [k * interval])
         else if poll k = "FAILED" ∨ poll k = "CRASHED" then
          (.deployFailed (poll k), [k * interval])
         else
          ((waitForDeploymentLoop poll timeout interval hI (k + 1)).1,
           k * interval :: (waitForDeploymentLoop poll timeout interval hI (k + 1)).2))
      else (.timedOut timeout, []) := by
  rw [waitForDeploymentLoop]
  rfl

/-- When every poll returns an unrecognized (non-terminal) status the
loop times out; its polls happen at `k·interval, (k+1)·interval, …`, and
their number is pinned by the timeout. -/
theorem waitLoop_nonterminal_invariant (poll : Nat → String)
    (timeout interval : Nat) (hI : 0 < interval)
    (hnt : ∀ n, ¬(poll n = "SUCCESS" ∨ poll n = "ACTIVE" ∨
                  poll n = "FAILED" ∨ poll n = "CRASHED")) :
    ∀ k,
      (waitForDeploymentLoop poll timeout interval hI k).1 = .timedOut timeout ∧
      (waitForDeploymentLoop poll timeout interval hI k).2.length * interval ≤
        timeout + interval - k * interval ∧
      timeout ≤ k * interval +
        (waitForDeploymentLoop poll timeout interval hI k).2.length * interval ∧
      (waitForDeploymentLoop poll timeout interval hI k).2 =
        (List.range
          (waitForDeploymentLoop poll timeout interval hI k).2.length).map
          (fun j => (k + j) * interval) := by
  intro k
  induction k using waitForDeploymentLoop.induct poll timeout interval hI with
  | case1 x hx s hcond =>
    have hcond' : poll x = "SUCCESS" ∨ poll x = "ACTIVE" := hcond
    rcases hcond' with h | h
    · exact absurd (Or.inl h) (hnt x)
    · exact absurd (Or.inr (Or.inl h)) (hnt x)
  | case2 x hx s _ hcond =>
    have hcond' : poll x = "FAILED" ∨ poll x = "CRASHED" := hcond
    rcases hcond' with h | h
    · exact absurd (Or.inr (Or.inr (Or.inl h))) (hnt x)
    · exact absurd (Or.inr (Or.inr (Or.inr h))) (hnt x)
  | case3 x hx s hc1 hc2 ih =>
    have hc1' : ¬(poll x = "SUCCESS" ∨ poll x = "ACTIVE") := hc1
    have hc2' : ¬(poll x = "FAILED" ∨ poll x = "CRASHED") := hc2
    rw [waitLoop_step poll timeout interval hI x, if_pos hx, if_neg hc1', if_neg hc2']
    obtain ⟨ih1, ih2, ih3, ih4⟩ := ih
    have e1 : (x + 1) * interval = x * interval + interval := Nat.succ_mul x interval
    refine ⟨ih1, ?_, ?_, ?_⟩
    · simp only [List.length_cons]
      have e2 :
          ((waitForDeploymentLoop poll timeout interval hI (x + 1)).2.length + 1) *
            interval =
          (waitForDeploymentLoop poll timeout interval hI (x + 1)).2.length *
            interval + interval := Nat.succ_mul _ _
      omega
    · simp only [List.length_cons]
      have e2 :
          ((waitForDeploymentLoop poll timeout interval hI (x + 1)).2.length + 1) *
            interval =
          (waitForDeploymentLoop poll timeout interval hI (x + 1)).2.length *
            interval + interval := Nat.succ_mul _ _
      omega
    · simp only [List.length_cons, List.range_succ_eq_map, List.map_cons,
        List.map_map, Nat.add_zero, List.cons.injEq]
      refine ⟨trivial, ?_⟩
      rw [ih4]
      simp only [List.length_map, List.length_range]
      refine List.map_congr_left (fun j _ => ?_)
      simp only [Function.comp_apply]
      congr 1
      omega
  | case4 x hx =>
    rw [waitLoop_step poll timeout interval hI x, if_neg hx]
    refine ⟨rfl, by simp, by simp; omega, by simp⟩

/-- C5: if every poll of `getDeploymentStatus` returns a non-terminal
status, `waitForDeployment` raises the distinct timeout error exactly
when the elapsed time reaches the configured timeout, polls at the
constant interval (the poll instants form the arithmetic progression
`0, interval, 2·interval, …` — no backoff), and issues at most
`timeout / interval + 1` poll calls. -/
theorem polling_loop_times_out (poll : Nat → String) (timeout interval : Nat)
    (hI : 0 < interval)
    (hnt : ∀ n, ¬(poll n = "SUCCESS" ∨ poll n = "ACTIVE" ∨
                  poll n = "FAILED" ∨ poll n = "CRASHED")) :
    (waitForDeployment poll timeout interval hI).1 =
      .error ("Deployment timed out after " ++ toString timeout ++ "ms") ∧
    (waitForDeployment poll timeout interval hI).2.length ≤
      timeout / interval + 1 ∧
    timeout ≤ (waitForDeployment poll timeout interval hI).2.length * interval ∧
    (waitForDeployment poll timeout interval hI).2 =
      (List.range (waitForDeployment poll timeout interval hI).2.length).map
        (fun j => j * interval) := by
  obtain ⟨h1, h2, h3, h4⟩ :=
    waitLoop_nonterminal_invariant poll timeout interval hI hnt 0
  simp only [waitForDeployment, h1]
  refine ⟨trivial, ?_, ?_, ?_⟩
  · have hb : (waitForDeploymentLoop poll timeout interval hI 0).2.length *
        interval ≤ timeout + interval := by omega
    have := (Nat.le_div_iff_mul_le hI).mpr hb
    rwa [Nat.add_div_right timeout hI] at this
  · omega
  · rw [h4]
    simp

/-- Witness for C5: a status source that always reports `"BUILDING"`,
timeout 10 ms, interval 5 ms. -/
theorem polling_loop_times_out_witness :
    (waitForDeployment (fun _ => "BUILDING") 10 5 (by decide)).1 =
      .error ("Deployment timed out after " ++ toString 10 ++ "ms") ∧
    (waitForDeployment (fun _ => "BUILDING") 10 5 (by decide)).2.length ≤
      10 / 5 + 1 ∧
    10 ≤ (waitForDeployment (fun _ => "BUILDING") 10 5 (by decide)).2.length * 5 ∧
    (waitForDeployment (fun _ => "BUILDING") 10 5 (by decide)).2 =
      (List.range
        (waitForDeployment (fun _ => "BUILDING") 10 5 (by decide)).2.length).map
        (fun j => j * 5) :=
  polling_loop_times_out (fun _ => "BUILDING") 10 5 (by decide)
    (fun n => by simp)

/-- C10: the loop recognizes exactly the uppercase strings `SUCCESS` and
`ACTIVE` as terminal success and `FAILED` and `CRASHED` as terminal
failure; any other status (e.g. lowercase or unknown) makes it poll
again, and if every poll is unrecognized it keeps polling until the
timeout error. -/
theorem poll_status_vocabulary (poll : Nat → String) (timeout interval : Nat)
    (hI : 0 < interval) (k : Nat) (hk : k * interval < timeout) :
    ((poll k = "SUCCESS" ∨ poll k = "ACTIVE") →
      waitForDeploymentLoop poll timeout interval hI k =
        (.completed (poll k), [k * interval])) ∧
    ((poll k = "FAILED" ∨ poll k = "CRASHED") →
      waitForDeploymentLoop poll timeout interval hI k =
        (.deployFailed (poll k), [k * interval])) ∧
    (¬(poll k = "SUCCESS" ∨ poll k = "ACTIVE" ∨
       poll k = "FAILED" ∨ poll k = "CRASHED") →
      waitForDeploymentLoop poll timeout interval hI k =
        ((waitForDeploymentLoop poll timeout interval hI (k + 1)).1,
         k * interval :: (waitForDeploymentLoop poll timeout interval hI (k + 1)).2)) ∧
    ((∀ n, ¬(poll n = "SUCCESS" ∨ poll n = "ACTIVE" ∨
             poll n = "FAILED" ∨ poll n = "CRASHED")) →
      (waitForDeployment poll timeout interval hI).1 =
        .error ("Deployment timed out after " ++ toString timeout ++ "ms")) := by
  refine ⟨?_, ?_, ?_, ?_⟩
  · intro h
    rw [waitLoop_step poll timeout interval hI k, if_pos hk, if_pos h]
  · intro h
    have hns : ¬(poll k = "SUCCESS" ∨ poll k = "ACTIVE") := by
      rcases h with h | h <;> rw [h] <;> decide
    rw [waitLoop_step poll timeout interval hI k, if_pos hk, if_neg hns, if_pos h]
  · intro h
    have hns : ¬(poll k = "SUCCESS" ∨ poll k = "ACTIVE") := by tauto
    have hnf : ¬(poll k = "FAILED" ∨ poll k = "CRASHED") := by tauto
    rw [waitLoop_step poll timeout interval hI k, if_pos hk, if_neg hns, if_neg hnf]
  · intro hnt
    obtain ⟨h1, _, _, _⟩ :=
      waitLoop_nonterminal_invariant poll timeout interval hI hnt 0
    simp only [waitForDeployment, h1]

/-- Witness for C10: a lowercase `"success"` status is not recognized as
terminal — the loop polls again — and the uppercase `"ACTIVE"` resolves
the wait. -/
theorem poll_status_vocabulary_witness :
    ((fun _ => "success" : Nat → String) 0 = "SUCCESS" ∨
     (fun _ => "success" : Nat → String) 0 = "ACTIVE" ∨
     (fun _ => "success" : Nat → String) 0 = "FAILED" ∨
     (fun _ => "success" : Nat → String) 0 = "CRASHED" → False) ∧
    waitForDeploymentLoop (fun _ => "success") 10 5 (by decide) 0 =
      ((waitForDeploymentLoop (fun _ => "success") 10 5 (by decide) 1).1,
       0 * 5 :: (waitForDeploymentLoop (fun _ => "success") 10 5 (by decide) 1).2) :=
  ⟨by intro h; simp at h,
   (poll_status_vocabulary (fun _ => "success") 10 5 (by decide) 0
      (by decide)).2.2.1 (by simp)⟩

/-! ## Environment variable construction (C7) -/

/-- C7 (scenario A): a config with lendpro credentials but no branding,
visualizer or feature settings yields exactly one `NODE_ENV=production`
entry, exactly one entry per lendpro field, and none of the conditional
branding/visualizer/cart-only keys. -/
theorem scenario_a_env_vars (lp : LendproConfig) (idv namev domainv msid : String) :
    (buildEnvironmentVariables ⟨idv, namev, domainv, lp, none, none, none⟩
        msid).countP (fun v => v.key == "NODE_ENV" && v.value == "production") = 1 ∧
    (buildEnvironmentVariables ⟨idv, namev, domainv, lp, none, none, none⟩
        msid).countP (fun v => v.key == "LENDPRO_API_URL") = 1 ∧
    (buildEnvironmentVariables ⟨idv, namev, domainv, lp, none, none, none⟩
        msid).countP (fun v => v.key == "LENDPRO_USERNAME") = 1 ∧
    (buildEnvironmentVariables ⟨idv, namev, domainv, lp, none, none, none⟩
        msid).countP (fun v => v.key == "LENDPRO_PASSWORD") = 1 ∧
    (buildEnvironmentVariables ⟨idv, namev, domainv, lp, none, none, none⟩
        msid).countP (fun v => v.key == "LENDPRO_STORE_ID") = 1 ∧
    (buildEnvironmentVariables ⟨idv, namev, domainv, lp, none, none, none⟩
        msid).countP (fun v => v.key == "LENDPRO_SALES_ID") = 1 ∧
    (buildEnvironmentVariables ⟨idv, namev, domainv, lp, none, none, none⟩
        msid).countP (fun v => v.key == "LENDPRO_SALES_NAME") = 1 ∧
    (∀ v ∈ buildEnvironmentVariables ⟨idv, namev, domainv, lp, none, none, none⟩
        msid, v.key ∉ conditionalKeys) := by
  have hvs : buildEnvironmentVariables ⟨idv, namev, domainv, lp, none, none, none⟩
      msid =
      [ ⟨"NODE_ENV", "production"⟩,
        ⟨"PORT", "3000"⟩,
        ⟨"LENDPRO_API_URL", lp.apiUrl⟩,
        ⟨"LENDPRO_USERNAME", lp.username⟩,
        ⟨"LENDPRO_PASSWORD", lp.password⟩,
        ⟨"LENDPRO_STORE_ID", lp.storeId⟩,
        ⟨"LENDPRO_SALES_ID", lp.salesId⟩,
        ⟨"LENDPRO_SALES_NAME", lp.salesName⟩,
        ⟨"DATABASE_URL", "$\x7b\x7b" ++ msid ++ ".MYSQL_URL\x7d\x7d"⟩,
        ⟨"OAUTH_SERVER_URL", "http://localhost:3000"⟩ ] := rfl
  rw [hvs]
  refine ⟨?_, ?_, ?_, ?_, ?_, ?_, ?_, ?_⟩
  all_goals simp [List.countP_cons, conditionalKeys]

/-! ## Project naming (C8) -/

/-- Output of the whitespace-collapsing pass never contains whitespace. -/
theorem collapseWhitespace_no_ws :
    ∀ (l : List Char) (b : Bool), ∀ c ∈ collapseWhitespace b l,
      c.isWhitespace = false := by
  intro l
  induction l with
  | nil => intro b c hc; simp [collapseWhitespace] at hc
  | cons a t ih =>
    intro b c hc
    simp only [collapseWhitespace] at hc
    by_cases ha : a.isWhitespace
    · rw [if_pos ha] at hc
      by_cases hb : b
      · rw [if_pos hb] at hc
        exact ih true c hc
      · rw [if_neg hb] at hc
        rcases List.mem_cons.mp hc with rfl | hc
        · decide
        · exact ih true c hc
    · rw [if_neg ha] at hc
      rcases List.mem_cons.mp hc with rfl | hc
      · exact Bool.not_eq_true _ ▸ (by simpa using ha)
      · exact ih false c hc

/-- The trace of remote calls issued by `deployClient` always starts with
the `createProject` call carrying the derived project name. -/
theorem deployCore_log_head (o : RailwayOracle) (config : ClientConfig) :
    (deployClientCore o config).2.head? =
      some (RemoteCall.createProject (railwayProjectName config.name)) := by
  simp only [deployClientCore]
  cases o.createProject (railwayProjectName config.name) with
  | error e => rfl
  | ok project =>
    dsimp only
    cases o.createMySQLService project.projectId "mysql" with
    | error e => rfl
    | ok mysqlService =>
      dsimp only
      cases o.createService project.projectId "web" githubRepo githubBranch with
      | error e => rfl
      | ok webService =>
        dsimp only
        cases o.setEnvironmentVariables project.projectId webService.serviceId
            (buildEnvironmentVariables config mysqlService.serviceId) with
        | error e => rfl
        | ok u =>
          dsimp only
          cases o.triggerDeployment project.projectId webService.serviceId with
          | error e => rfl
          | ok trig =>
            dsimp only
            cases (waitForDeployment o.getDeploymentStatus 300000 5000
                pollIntervalPos).1 with
            | error e => rfl
            | ok st =>
              dsimp only
              cases o.getServiceDomain webService.serviceId with
              | error e => rfl
              | ok dom => simp

/-- C8 (amended): the remote project is created under the name
`"lendpro-" ++ slug` where `slug` is the display name lowercased with
each maximal whitespace run replaced by a single hyphen — deterministic
in the display name and whitespace-free — rather than the bare
lowercased-with-hyphens name of the original claim. -/
theorem railway_project_name_amended (o : RailwayOracle) (config : ClientConfig) :
    (deployClientCore o config).2.head? =
      some (RemoteCall.createProject ("lendpro-" ++ slugify config.name)) ∧
    ∀ c ∈ (slugify config.name).toList, c.isWhitespace = false := by
  constructor
  · exact deployCore_log_head o config
  · intro c hc
    exact collapseWhitespace_no_ws _ false c hc

/-- C8 counterexample: for the display name `"My Shop"` the project is
created as `"lendpro-my-shop"`, not the claim's `"my-shop"`. -/
theorem railway_project_name_counterexample :
    (deployClientCore oracleAllFail myShopConfig).2.head? =
      some (RemoteCall.createProject "lendpro-my-shop") ∧
    specProjectName "My Shop" = "my-shop" ∧
    railwayProjectName "My Shop" ≠ specProjectName "My Shop" := by
  refine ⟨by decide, by decide, by decide⟩

/-! ## Ledger bookkeeping lemmas -/

theorem clients_of_updateDeploymentRow (db : AdminDb) (did : String)
    (f : DeploymentRow → DeploymentRow) :
    (updateDeploymentRow db did f).clients = db.clients := rfl

theorem deployments_of_updateClientRow (db : AdminDb) (cid : String)
    (f : ClientRow → ClientRow) :
    (updateClientRow db cid f).deployments = db.deployments := rfl

/-- `find?` by key through a keyed conditional-update `map`. -/
theorem find?_map_keyed_update {α : Type} (key : α → String) (t : String)
    (f : α → α) (hf : ∀ r, key (f r) = key r) (l : List α) :
    (l.map (fun r => if key r == t then f r else r)).find?
        (fun r => key r == t) =
      (l.find? (fun r => key r == t)).map f := by
  induction l with
  | nil => rfl
  | cons r rest ih =>
    simp only [List.map_cons]
    by_cases hr : (key r == t) = true
    · have hfr : (key (f r) == t) = true := by rw [hf r]; exact hr
      rw [if_pos hr]
      simp only [List.find?, hfr, hr]
      rfl
    · have hrf : (key r == t) = false := by simpa using hr
      rw [if_neg hr]
      simp only [List.find?, hrf]
      exact ih

theorem getClientRow_update (db : AdminDb) (cid : String)
    (f : ClientRow → ClientRow) (hf : ∀ r, (f r).id = r.id) :
    getClientRow (updateClientRow db cid f) cid = (getClientRow db cid).map f := by
  simp only [getClientRow, updateClientRow]
  exact find?_map_keyed_update (fun r => r.id) cid f hf db.clients

theorem findDeployment_update (db : AdminDb) (did : String)
    (f : DeploymentRow → DeploymentRow) (hf : ∀ r, (f r).id = r.id) :
    (updateDeploymentRow db did f).deployments.find? (fun r => r.id == did) =
      (db.deployments.find? (fun r => r.id == did)).map f := by
  simp only [updateDeploymentRow]
  exact find?_map_keyed_update (fun r => r.id) did f hf db.deployments

/-- Appending a fresh-id row makes it the unique `find?` hit for its id. -/
theorem find?_append_fresh (l : List DeploymentRow) (row : DeploymentRow)
    (did : String) (hfresh : ∀ r ∈ l, r.id ≠ did) :
    row.id = did → (l ++ [row]).find? (fun r => r.id == did) = some row := by
  induction l with
  | nil =>
    intro hid
    simp [List.find?, hid]
  | cons r rest ih =>
    intro hid
    have hr : (r.id == did) = false :=
      beq_eq_false_iff_ne.mpr (hfresh r (by simp))
    simp only [List.cons_append, List.find?_cons, hr]
    exact ih (fun x hx => hfresh x (by simp [hx])) hid

/-- Rows with a different id pass through a keyed update unmodified. -/
theorem mem_update_of_ne {l : List DeploymentRow} {r : DeploymentRow}
    (did : String) (f : DeploymentRow → DeploymentRow)
    (hr : r ∈ l) (hne : r.id ≠ did) :
    r ∈ l.map (fun x => if x.id == did then f x else x) := by
  have h := List.mem_map_of_mem (fun x => if x.id == did then f x else x) hr
  simpa [beq_eq_false_iff_ne.mpr hne] using h

/-- A keyed update keeps some row with the key present. -/
theorem exists_id_update {l : List DeploymentRow} (did : String)
    (f : DeploymentRow → DeploymentRow) (hf : ∀ r, (f r).id = r.id)
    (h : ∃ r ∈ l, r.id = did) :
    ∃ r ∈ l.map (fun x => if x.id == did then f x else x), r.id = did := by
  obtain ⟨r, hr, hid⟩ := h
  have hmem := List.mem_map_of_mem (fun x => if x.id == did then f x else x) hr
  by_cases hb : (r.id == did) = true
  · refine ⟨f r, ?_, by rw [hf r]; exact hid⟩
    simpa [hb] using hmem
  · refine ⟨r, ?_, hid⟩
    simpa [hb] using hmem

theorem getClientRow_updateDeploymentRow (db : AdminDb) (did : String)
    (f : DeploymentRow → DeploymentRow) (cid : String) :
    getClientRow (updateDeploymentRow db did f) cid = getClientRow db cid := rfl

theorem getClientRow_createDeploymentRow (db : AdminDb) (row : DeploymentRow)
    (cid : String) :
    getClientRow (createDeploymentRow db row) cid = getClientRow db cid := rfl

theorem findDeployment_updateClientRow (db : AdminDb) (cid : String)
    (f : ClientRow → ClientRow) (did : String) :
    (updateClientRow db cid f).deployments.find? (fun r => r.id == did) =
      db.deployments.find? (fun r => r.id == did) := rfl

theorem deployments_of_create (db : AdminDb) (row : DeploymentRow) :
    (createDeploymentRow db row).deployments = db.deployments ++ [row] := rfl

theorem find?_filter_out (l : List ClientRow) (cid : String) :
    (l.filter (fun r => !(r.id == cid))).find? (fun r => r.id == cid) = none := by
  induction l with
  | nil => rfl
  | cons r rest ih =>
    by_cases h : (r.id == cid) = true
    · simp [List.filter_cons, h, ih]
    · simp [List.filter_cons, h, List.find?_cons, ih]

/-! ## Client deletion (C9) -/

/-- C9: when the remote `deleteProject` fails, the `clients.delete`
mutation still succeeds, the client row is gone and so are its related
ledger rows; the remote error is only logged, never propagated. -/
theorem delete_swallows_remote_error (db : AdminDb) (clientId : String)
    (o : RailwayOracle) (c : ClientRow) (pid e : String)
    (hc : getClientRow db clientId = some c)
    (hpid : c.railwayProjectId = some pid)
    (hfail : o.deleteProject pid = .error e) :
    (deleteMutation db clientId o).1 = .ok () ∧
    getClientRow (deleteMutation db clientId o).2 clientId = none ∧
    ∀ r ∈ (deleteMutation db clientId o).2.deployments, r.clientId ≠ clientId := by
  simp only [deleteMutation, hc]
  refine ⟨trivial, ?_, ?_⟩
  · simp only [getClientRow, deleteClientRows]
    exact find?_filter_out db.clients clientId
  · intro r hr
    simp only [deleteClientRows, List.mem_filter] at hr
    simpa using hr.2

/-! ## Error propagation through `deploy` (C2) -/

/-- `deployClient` is total: when it does not succeed it returns the
structured failure result carrying the first step's error message — no
exception escapes it. -/
theorem deployClient_failure_shape (o : RailwayOracle) (config : ClientConfig)
    (hfail : (deployClient o config).1.success = false) :
    ∃ m, (deployClient o config).1 =
      { success := false, clientId := config.id, error := some m } := by
  rcases hcore : deployClientCore o config with ⟨res, log⟩
  cases res with
  | ok d =>
    exfalso
    simp only [deployClient, hcore] at hfail
    exact absurd hfail (by decide)
  | error m =>
    refine ⟨m, ?_⟩
    simp only [deployClient, hcore]

/-- C2: when a provisioning step inside `deployClient` raises, the caller
of `deployClient` receives `DeploymentResult{success := false, error}`
(no uncaught exception), and the `clients.deploy` mutation reconciles the
failure: client status `failed`, ledger row `failed` with the error
message and a completion timestamp, the error re-thrown to the mutation
caller. -/
theorem provisioning_error_reconciliation
    (db : AdminDb) (clientId did : String) (now : Nat) (o : RailwayOracle)
    (pw : String) (c : ClientRow)
    (hc : getClientRow db clientId = some c)
    (hfresh : ∀ r ∈ db.deployments, r.id ≠ did)
    (hfail : (deployClient o (deployConfigOfRow c pw)).1.success = false) :
    ∃ m,
      (deployClient o (deployConfigOfRow c pw)).1 =
        { success := false, clientId := c.id, error := some m } ∧
      (deployMutation db clientId did now o (.ok pw)).result = .error m ∧
      (getClientRow (deployMutation db clientId did now o (.ok pw)).db
          clientId).map (fun r => r.status) = some .failed ∧
      ((deployMutation db clientId did now o (.ok pw)).db.deployments.find?
          (fun r => r.id == did)).map
          (fun r => (r.status, r.errorMessage, r.completedAt)) =
        some (.failed, some m, some now) := by
  obtain ⟨m, hshape⟩ := deployClient_failure_shape o (deployConfigOfRow c pw) hfail
  refine ⟨m, hshape, ?_, ?_, ?_⟩
  · simp only [deployMutation, hc, hshape, Bool.false_eq_true, if_false,
      Option.getD_some]
  · simp only [deployMutation, hc, hshape, Bool.false_eq_true, if_false,
      Option.getD_some]
    simp [getClientRow_updateDeploymentRow, getClientRow_update,
      getClientRow_createDeploymentRow, hc]
  · simp only [deployMutation, hc, hshape, Bool.false_eq_true, if_false,
      Option.getD_some]
    simp [findDeployment_update, findDeployment_updateClientRow,
      deployments_of_create, -List.find?_append,
      find?_append_fresh db.deployments
        ⟨did, clientId, .pending,
          (if c.railwayProjectId.isSome then .redeploy else .initial),
          none, none⟩ did hfresh rfl]

/-- Witness for C2: every remote call fails, so `createProject` raises
first; the client and the new ledger row `d2` end up `failed` with the
error message recorded. -/
theorem provisioning_error_reconciliation_witness :
    ∃ m,
      (deployClient oracleAllFail (deployConfigOfRow client0 "p")).1 =
        { success := false, clientId := client0.id, error := some m } ∧
      (deployMutation db0 "c1" "d2" 5 oracleAllFail (.ok "p")).result =
        .error m ∧
      (getClientRow (deployMutation db0 "c1" "d2" 5 oracleAllFail (.ok "p")).db
          "c1").map (fun r => r.status) = some .failed ∧
      ((deployMutation db0 "c1" "d2" 5 oracleAllFail
          (.ok "p")).db.deployments.find? (fun r => r.id == "d2")).map
          (fun r => (r.status, r.errorMessage, r.completedAt)) =
        some (.failed, some m, some 5) :=
  provisioning_error_reconciliation db0 "c1" "d2" 5 oracleAllFail "p" client0
    (by decide) (by decide) (by decide)

/-! ## Concurrent deploys (C1) -/

/-- C1 (amended): a second `deploy(clientId)` issued while an earlier
attempt's ledger row is still non-terminal is NOT rejected with a
conflict error — the mutation unconditionally inserts a fresh ledger row
and proceeds with provisioning.  The earlier attempt's row itself is left
unmodified (ledger writes only target the new id). -/
theorem second_deploy_not_rejected (db : AdminDb) (clientId did : String)
    (now : Nat) (o : RailwayOracle) (dec : Except String String)
    (c : ClientRow) (d1 : DeploymentRow)
    (hc : getClientRow db clientId = some c)
    (hd1 : d1 ∈ db.deployments) (hcid : d1.clientId = clientId)
    (hnt : d1.status.isTerminal = false)
    (hne : d1.id ≠ did) :
    d1 ∈ (deployMutation db clientId did now o dec).db.deployments ∧
    ∃ r ∈ (deployMutation db clientId did now o dec).db.deployments,
      r.id = did := by
  simp only [deployMutation, hc]
  have hbase : d1 ∈ db.deployments ++
      [({ id := did, clientId := clientId, status := .pending,
          deploymentType :=
            if c.railwayProjectId.isSome then .redeploy else .initial } :
        DeploymentRow)] := List.mem_append_left _ hd1
  have hexbase : ∃ r ∈ db.deployments ++
      [({ id := did, clientId := clientId, status := .pending,
          deploymentType :=
            if c.railwayProjectId.isSome then .redeploy else .initial } :
        DeploymentRow)], r.id = did :=
    ⟨({ id := did, clientId := clientId, status := .pending,
        deploymentType :=
          if c.railwayProjectId.isSome then .redeploy else .initial } :
      DeploymentRow), List.mem_append_right _ (List.mem_singleton_self _), rfl⟩
  cases dec with
  | error msg =>
    exact ⟨mem_update_of_ne did _ (mem_update_of_ne did _ hbase hne) hne,
      exists_id_update did _ (fun r => rfl)
        (exists_id_update did _ (fun r => rfl) hexbase)⟩
  | ok password =>
    by_cases hs : (deployClient o (deployConfigOfRow c password)).1.success = true
    · simp only [hs, if_true]
      exact ⟨mem_update_of_ne did _ (mem_update_of_ne did _ hbase hne) hne,
        exists_id_update did _ (fun r => rfl)
          (exists_id_update did _ (fun r => rfl) hexbase)⟩
    · simp only [if_neg hs]
      exact ⟨mem_update_of_ne did _
          (mem_update_of_ne did _ (mem_update_of_ne did _ hbase hne) hne) hne,
        exists_id_update did _ (fun r => rfl)
          (exists_id_update did _ (fun r => rfl)
            (exists_id_update did _ (fun r => rfl) hexbase))⟩

/-- Witness for C1 (amended): client `c1` still has `d1` pending; the
second deploy call for fresh id `d2` proceeds and leaves `d1` intact. -/
theorem second_deploy_not_rejected_witness :
    pendingRow ∈ (deployMutation db0 "c1" "d2" 5 oracleAllFail
      (.ok "p")).db.deployments ∧
    ∃ r ∈ (deployMutation db0 "c1" "d2" 5 oracleAllFail
      (.ok "p")).db.deployments, r.id = "d2" :=
  second_deploy_not_rejected db0 "c1" "d2" 5 oracleAllFail (.ok "p") client0
    pendingRow (by decide) (by decide) (by decide) (by decide) (by decide)

/-- C1 counterexample: client `c1` has attempt `d1` still `pending`, yet
a second deploy call is not rejected with a conflict error: it inserts
ledger row `d2`, runs provisioning (failing with the remote error, not a
conflict) and afterwards the ledger holds two rows, the first unmodified. -/
theorem second_deploy_conflict_counterexample :
    pendingRow.status.isTerminal = false ∧
    (deployMutation db0 "c1" "d2" 5 oracleAllFail
      (.ok "p")).db.deployments.length = 2 ∧
    (deployMutation db0 "c1" "d2" 5 oracleAllFail
      (.ok "p")).db.deployments.head? = some pendingRow ∧
    (deployMutation db0 "c1" "d2" 5 oracleAllFail (.ok "p")).result =
      .error "remote error" := by
  refine ⟨rfl, by decide, by decide, rfl⟩

/-! ## Ledger state machine (C6) -/

/-- C6 (amended): over one `clients.deploy` attempt the ledger row's
status takes a sequence that is one of `pending → building → success` or
`pending → building → failed`; the row never enters `deploying` (only the
client's own status does), and at every point `completedAt` is null
exactly while the status is non-terminal. -/
theorem ledger_status_sequence (db : AdminDb) (clientId did : String)
    (now : Nat) (o : RailwayOracle) (dec : Except String String)
    (c : ClientRow)
    (hc : getClientRow db clientId = some c)
    (hfresh : ∀ r ∈ db.deployments, r.id ≠ did) :
    (∀ p ∈ (deployMutation db clientId did now o dec).dbTrace.filterMap
        (fun s => depSnap s did),
      (p.2 = none ↔ p.1.isTerminal = false)) ∧
    dedupConsecutive
      (((deployMutation db clientId did now o dec).dbTrace.filterMap
        (fun s => depSnap s did)).map Prod.fst) ∈
      ([[DeploymentStatus.pending, .building, .success],
        [DeploymentStatus.pending, .building, .failed]] :
        List (List DeploymentStatus)) ∧
    DeploymentStatus.deploying ∉
      ((deployMutation db clientId did now o dec).dbTrace.filterMap
        (fun s => depSnap s did)).map Prod.fst := by
  cases dec with
  | error msg =>
    have htr : (deployMutation db clientId did now o (.error msg)).dbTrace.filterMap
        (fun s => depSnap s did) =
        [(DeploymentStatus.pending, none), (.pending, none), (.building, none),
         (.building, none), (.failed, some now)] := by
      simp [deployMutation, hc, depSnap, findDeployment_update,
        findDeployment_updateClientRow, deployments_of_create,
        -List.find?_append,
        find?_append_fresh db.deployments
          ⟨did, clientId, .pending,
            (if c.railwayProjectId.isSome then .redeploy else .initial),
            none, none⟩ did hfresh rfl]
    rw [htr]
    refine ⟨?_, by simp only [List.map_cons, List.map_nil]; decide,
      by simp only [List.map_cons, List.map_nil]; decide⟩
    intro p hp
    simp only [List.mem_cons, List.not_mem_nil, or_false] at hp
    rcases hp with rfl | rfl | rfl | rfl | rfl <;>
      simp [DeploymentStatus.isTerminal]
  | ok password =>
    by_cases hs : (deployClient o (deployConfigOfRow c password)).1.success = true
    · have htr : (deployMutation db clientId did now o
          (.ok password)).dbTrace.filterMap (fun s => depSnap s did) =
          [(DeploymentStatus.pending, none), (.pending, none), (.building, none),
           (.building, none), (.success, some now)] := by
        simp [deployMutation, hc, hs, depSnap, findDeployment_update,
          findDeployment_updateClientRow, deployments_of_create,
          -List.find?_append,
          find?_append_fresh db.deployments
            ⟨did, clientId, .pending,
              (if c.railwayProjectId.isSome then .redeploy else .initial),
              none, none⟩ did hfresh rfl]
      rw [htr]
      refine ⟨?_, by simp only [List.map_cons, List.map_nil]; decide,
        by simp only [List.map_cons, List.map_nil]; decide⟩
      intro p hp
      simp only [List.mem_cons, List.not_mem_nil, or_false] at hp
      rcases hp with rfl | rfl | rfl | rfl | rfl <;>
        simp [DeploymentStatus.isTerminal]
    · have htr : (deployMutation db clientId did now o
          (.ok password)).dbTrace.filterMap (fun s => depSnap s did) =
          [(DeploymentStatus.pending, none), (.pending, none), (.building, none),
           (.building, none), (.failed, some now), (.failed, some now),
           (.failed, some now)] := by
        simp [deployMutation, hc, hs, depSnap, findDeployment_update,
          findDeployment_updateClientRow, deployments_of_create,
          -List.find?_append,
          find?_append_fresh db.deployments
            ⟨did, clientId, .pending,
              (if c.railwayProjectId.isSome then .redeploy else .initial),
              none, none⟩ did hfresh rfl]
      rw [htr]
      refine ⟨?_, by simp only [List.map_cons, List.map_nil]; decide,
        by simp only [List.map_cons, List.map_nil]; decide⟩
      intro p hp
      simp only [List.mem_cons, List.not_mem_nil, or_false] at hp
      rcases hp with rfl | rfl | rfl | rfl | rfl | rfl | rfl <;>
        simp [DeploymentStatus.isTerminal]

/-- Witness for C6 (amended) at the concrete failing run. -/
theorem ledger_status_sequence_witness :
    (∀ p ∈ (deployMutation db0 "c1" "d2" 5 oracleAllFail
        (.ok "p")).dbTrace.filterMap (fun s => depSnap s "d2"),
      (p.2 = none ↔ p.1.isTerminal = false)) ∧
    dedupConsecutive
      (((deployMutation db0 "c1" "d2" 5 oracleAllFail
        (.ok "p")).dbTrace.filterMap (fun s => depSnap s "d2")).map Prod.fst) ∈
      ([[DeploymentStatus.pending, .building, .success],
        [DeploymentStatus.pending, .building, .failed]] :
        List (List DeploymentStatus)) ∧
    DeploymentStatus.deploying ∉
      ((deployMutation db0 "c1" "d2" 5 oracleAllFail
        (.ok "p")).dbTrace.filterMap (fun s => depSnap s "d2")).map Prod.fst :=
  ledger_status_sequence db0 "c1" "d2" 5 oracleAllFail (.ok "p") client0
    (by decide) (by decide)

/-- C6 counterexample: a concrete attempt takes the status sequence
`pending, building, failed`, which is NOT a prefix of
`pending → building → deploying → {success|failed}` (the ledger row skips
`deploying` entirely). -/
theorem ledger_status_sequence_counterexample :
    dedupConsecutive
      (((deployMutation db0 "c1" "d3" 5 oracleAllFail
        (.ok "p")).dbTrace.filterMap (fun s => depSnap s "d3")).map Prod.fst) =
      [DeploymentStatus.pending, .building, .failed] ∧
    [DeploymentStatus.pending, .building, .failed] ∉
      (listPrefixes [DeploymentStatus.pending, .building, .deploying, .success] ++
       listPrefixes [DeploymentStatus.pending, .building, .deploying, .failed]) := by
  refine ⟨by decide, by decide⟩

/-- Witness for C9: the concrete client `c9` owns Railway project `p1`
and the oracle fails every remote call. -/
theorem delete_swallows_remote_error_witness :
    (deleteMutation db9 "c9" oracleAllFail).1 = .ok () ∧
    getClientRow (deleteMutation db9 "c9" oracleAllFail).2 "c9" = none ∧
    ∀ r ∈ (deleteMutation db9 "c9" oracleAllFail).2.deployments,
      r.clientId ≠ "c9" :=
  delete_swallows_remote_error db9 "c9" oracleAllFail client9 "p1" "remote error"
    (by decide) (by decide) rfl

end LendproAdmin
